import Mathlib

/-!
Shallow embedding of `net/nimble/controller/src/ble_ll_conn_hci.c`
(HCI command/event boundary of the NimBLE BLE link-layer controller):
the connect-request PDU encoder, the create-connection validator and
initiator, the rate-limited number-of-completed-packets event sender,
and the disconnect command processor.

Machine integers are modelled as `Nat` with explicit `% 2^w` where the C
code can overflow (`uint32_t` arithmetic, `uint8_t` stores).  Byte
buffers are modelled as functions `Nat → Nat` (index to byte value).
External collaborators (buffer pool, registry allocation, scan
subsystem, control-procedure start) are modelled from the spec where
their code is not part of this excerpt; each such definition carries a
doc comment saying so.
-/

/-! ## Protocol constants (from `nimble/ble.h`, `nimble/hci_common.h`,
`controller/ble_ll*.h`; the headers are not part of this excerpt).
Error codes are the HCI status codes of the Bluetooth specification. -/

def BLE_ERR_SUCCESS : Nat := 0
def BLE_ERR_UNK_CONN_ID : Nat := 2
def BLE_ERR_AUTH_FAIL : Nat := 5
def BLE_ERR_CONN_LIMIT : Nat := 9
def BLE_ERR_CMD_DISALLOWED : Nat := 12
def BLE_ERR_INV_HCI_CMD_PARMS : Nat := 18
def BLE_ERR_REM_USER_CONN_TERM : Nat := 19
def BLE_ERR_RD_CONN_TERM_RESRCS : Nat := 20
def BLE_ERR_RD_CONN_TERM_PWROFF : Nat := 21
def BLE_ERR_UNSUPP_FEATURE : Nat := 26
def BLE_ERR_UNIT_KEY_PAIRING : Nat := 41
def BLE_ERR_CONN_PARMS : Nat := 59

def BLE_HCI_SCAN_ITVL_MIN : Nat := 4
def BLE_HCI_SCAN_ITVL_MAX : Nat := 16384
def BLE_HCI_SCAN_WINDOW_MIN : Nat := 4
def BLE_HCI_SCAN_WINDOW_MAX : Nat := 16384
def BLE_HCI_INITIATOR_FILT_POLICY_MAX : Nat := 1
def BLE_HCI_CONN_PEER_ADDR_MAX : Nat := 3
def BLE_HCI_ADV_OWN_ADDR_MAX : Nat := 3
def BLE_HCI_ADV_OWN_ADDR_PUBLIC : Nat := 0
def BLE_HCI_ADV_OWN_ADDR_RANDOM : Nat := 1
def BLE_HCI_CONN_ITVL_MIN : Nat := 6
def BLE_HCI_CONN_ITVL_MAX : Nat := 3200
def BLE_HCI_CONN_LATENCY_MAX : Nat := 499
def BLE_HCI_CONN_SPVN_TIMEOUT_MIN : Nat := 10
def BLE_HCI_CONN_SPVN_TIMEOUT_MAX : Nat := 3200

/-- Supervision timeout is in units of 10 ms (spec: timeout units of
10 ms, converted to microseconds as timeout × 10000). -/
def BLE_HCI_CONN_SPVN_TMO_UNITS : Nat := 10

/-- One connection-interval unit is 1.25 ms = 1250 µs. -/
def BLE_LL_CONN_ITVL_USECS : Nat := 1250

def BLE_LL_CONN_MAX_CONN_HANDLE : Nat := 3839

def BLE_ADV_PDU_TYPE_CONNECT_REQ : Nat := 5
def BLE_ADV_PDU_HDR_TXADD_RAND : Nat := 64
def BLE_CONNECT_REQ_LEN : Nat := 34
def BLE_LL_PDU_HDR_LEN : Nat := 2
def BLE_DEV_ADDR_LEN : Nat := 6
def BLE_LL_CONN_REQ_ADVA_OFF : Nat := 8
def BLE_LL_CONN_CHMAP_LEN : Nat := 5
def BLE_LL_CONN_STATE_IDLE : Nat := 0
def BLE_LL_CONN_ROLE_MASTER : Nat := 1

/-- Modelled from the spec: the rate-limit interval for the batched
completed-packets report, `(BLE_LL_CFG_NUM_COMP_PKT_RATE *
OS_TICKS_PER_SEC) / 1000` os ticks ("a fixed minimum interval"); the
configuration constants live outside this excerpt.  2000 ms at 1000
ticks per second gives 2000 ticks.  No claim depends on the value. -/
def BLE_LL_NUM_COMP_PKT_RATE : Nat := 2000

/-- `uint32_t` modulus. -/
def U32 : Nat := 4294967296

/-- Wraparound-safe `uint32_t` subtraction `(uint32_t)(a - b)`. -/
def u32_sub (a b : Nat) : Nat := (a % U32 + U32 - b % U32) % U32

/-! ## Data model

`struct ble_ll_conn_sm` is declared in `controller/ble_ll_conn.h`,
which is not part of this excerpt; the fields below are the ones this
file reads or writes, modelled from their uses here and from the spec's
data model (§3).  All integer fields hold their stored (already
truncated) machine value. -/

structure ConnSm where
  conn_handle : Nat
  conn_role : Nat
  conn_state : Nat
  completed_pkts : Nat
  /-- `STAILQ_EMPTY(&connsm->conn_txq)` -/
  txq_empty : Bool
  disconnect_reason : Nat
  /-- `IS_PENDING_CTRL_PROC_M(connsm, BLE_LL_CTRL_PROC_TERMINATE)`;
  set by `ble_ll_ctrl_terminate_start`. -/
  terminate_pending : Bool
  own_addr_type : Nat
  peer_addr_type : Nat
  peer_addr : List Nat
  access_addr : Nat
  crcinit : Nat
  tx_win_size : Nat
  tx_win_off : Nat
  conn_itvl : Nat
  slave_latency : Nat
  supervision_tmo : Nat
  chanmap : List Nat
  hop_inc : Nat
  master_sca : Nat
deriving Repr, DecidableEq

/-- An all-zero connection record, used to build concrete records. -/
def connsm0 : ConnSm :=
  { conn_handle := 0, conn_role := 0, conn_state := 0, completed_pkts := 0,
    txq_empty := true, disconnect_reason := 0, terminate_pending := false,
    own_addr_type := 0, peer_addr_type := 0, peer_addr := [0, 0, 0, 0, 0, 0],
    access_addr := 0, crcinit := 0, tx_win_size := 0, tx_win_off := 0,
    conn_itvl := 0, slave_latency := 0, supervision_tmo := 0,
    chanmap := [0, 0, 0, 0, 0], hop_inc := 0, master_sca := 0 }

/-- `struct hci_create_conn`: the parsed create-connection command. -/
structure HciCreateConn where
  scan_itvl : Nat
  scan_window : Nat
  filter_policy : Nat
  peer_addr_type : Nat
  peer_addr : List Nat
  own_addr_type : Nat
  conn_itvl_min : Nat
  conn_itvl_max : Nat
  conn_latency : Nat
  supervision_timeout : Nat
  min_ce_len : Nat
  max_ce_len : Nat
deriving Repr, DecidableEq

/-- `le16toh` on a byte buffer: little-endian 16-bit read at `off`. -/
def le16toh (b : Nat → Nat) (off : Nat) : Nat := b off + 256 * b (off + 1)

/-- Parameter parsing and validation sequence of `ble_ll_conn_create`
(the source interleaves parsing and checks; every check failure returns
`BLE_ERR_INV_HCI_CMD_PARMS`, so the sequence is modelled as an `Option`:
`none` means some check failed).  The supervision-timeout cross-check is
computed in `uint32_t`, hence the explicit `% U32`.  When
`filter_policy ≠ 0` the source leaves the peer fields uninitialized
(stack garbage); the model uses `0`/`[]`, which no claim observes. -/
def ble_ll_conn_create_validate (b : Nat → Nat) : Option HciCreateConn :=
  let scan_itvl := le16toh b 0
  let scan_window := le16toh b 2
  if scan_itvl < BLE_HCI_SCAN_ITVL_MIN ∨ scan_itvl > BLE_HCI_SCAN_ITVL_MAX ∨
      scan_window < BLE_HCI_SCAN_WINDOW_MIN ∨ scan_window > BLE_HCI_SCAN_WINDOW_MAX ∨
      scan_itvl < scan_window then
    none
  else
    let filter_policy := b 4
    if filter_policy > BLE_HCI_INITIATOR_FILT_POLICY_MAX then
      none
    else
      let peer_addr_type := if filter_policy = 0 then b 5 else 0
      let peer_addr := if filter_policy = 0 then [b 6, b 7, b 8, b 9, b 10, b 11] else []
      if filter_policy = 0 ∧ peer_addr_type > BLE_HCI_CONN_PEER_ADDR_MAX then
        none
      else
        let own_addr_type := b 12
        if own_addr_type > BLE_HCI_ADV_OWN_ADDR_MAX then
          none
        else
          let conn_itvl_min := le16toh b 13
          let conn_itvl_max := le16toh b 15
          let conn_latency := le16toh b 17
          if conn_itvl_min > conn_itvl_max ∨ conn_itvl_min < BLE_HCI_CONN_ITVL_MIN ∨
              conn_itvl_min > BLE_HCI_CONN_ITVL_MAX ∨
              conn_latency > BLE_HCI_CONN_LATENCY_MAX then
            none
          else
            let supervision_timeout := le16toh b 19
            if supervision_timeout < BLE_HCI_CONN_SPVN_TIMEOUT_MIN ∨
                supervision_timeout > BLE_HCI_CONN_SPVN_TIMEOUT_MAX then
              none
            else
              let spvn_tmo_usecs :=
                supervision_timeout * (BLE_HCI_CONN_SPVN_TMO_UNITS * 1000) % U32
              let min_spvn_tmo_usecs :=
                conn_itvl_max * 2 * BLE_LL_CONN_ITVL_USECS % U32 * (1 + conn_latency) % U32
              if spvn_tmo_usecs ≤ min_spvn_tmo_usecs then
                none
              else
                let min_ce_len := le16toh b 21
                let max_ce_len := le16toh b 23
                if min_ce_len > max_ce_len then
                  none
                else
                  some { scan_itvl, scan_window, filter_policy, peer_addr_type,
                         peer_addr, own_addr_type, conn_itvl_min, conn_itvl_max,
                         conn_latency, supervision_timeout, min_ce_len, max_ce_len }

/-- The controller state touched by `ble_ll_conn_create`:
`g_ble_ll_conn_create_sm`, the scan-enabled flag, and the free/active
connection lists of the registry. -/
structure LLCreateState where
  create_sm : Option ConnSm
  scan_enabled : Bool
  free_list : List ConnSm
  active_list : List ConnSm
deriving Repr, DecidableEq

/-- Modelled from the spec: `ble_ll_conn_master_init` (in
`ble_ll_conn.c`, not part of this excerpt) initializes the allocated
record in master role from the validated command parameters ("all
link-parameter fields in §3"); the record starts idle with no
disconnect in progress. -/
def ble_ll_conn_master_init (c : ConnSm) (hcc : HciCreateConn) : ConnSm :=
  { c with conn_role := BLE_LL_CONN_ROLE_MASTER,
           conn_state := BLE_LL_CONN_STATE_IDLE,
           own_addr_type := hcc.own_addr_type,
           peer_addr_type := hcc.peer_addr_type,
           peer_addr := hcc.peer_addr,
           conn_itvl := hcc.conn_itvl_max,
           slave_latency := hcc.conn_latency,
           supervision_tmo := hcc.supervision_timeout,
           completed_pkts := 0,
           disconnect_reason := 0,
           terminate_pending := false }


/-! ## Connect-request PDU encoder (`ble_ll_conn_req_pdu_make`) -/

/-- An 8-bit store `dptr[off] = v` (assignment to a `uint8_t` lvalue
truncates modulo 256). -/
def wr8 (b : Nat → Nat) (off v : Nat) : Nat → Nat :=
  Function.update b off (v % 256)

/-- `htole16(dptr + off, v)`: low byte at `off`, high byte at `off+1`. -/
def htole16w (b : Nat → Nat) (off v : Nat) : Nat → Nat :=
  wr8 (wr8 b off v) (off + 1) (v / 256)

/-- `htole32(dptr + off, v)`: four little-endian bytes. -/
def htole32w (b : Nat → Nat) (off v : Nat) : Nat → Nat :=
  wr8 (wr8 (wr8 (wr8 b off v) (off + 1) (v / 256)) (off + 2) (v / 65536))
    (off + 3) (v / 16777216)

/-- `memcpy(dptr + off, src, n)` on byte buffers: bytes `off .. off+n-1`
take `src 0 .. src (n-1)`, everything else is untouched. -/
def memcpy_bytes (b : Nat → Nat) (off n : Nat) (src : Nat → Nat) : Nat → Nat :=
  fun i => if off ≤ i ∧ i < off + n then src (i - off) else b i

/-- `ble_ll_conn_req_pdu_make`: builds the connect-request PDU in the
scan PDU buffer (initial contents `buf`).  `dev_addr`/`rand_addr` are
the global device addresses `g_dev_addr`/`g_random_addr` (externals).
The source asserts (`assert(0)`) when `own_addr_type` is neither public
nor random; that fatal path is `none`.  After the header and the
initiator address the source advances `dptr` by
`BLE_LL_CONN_REQ_ADVA_OFF + BLE_DEV_ADDR_LEN = 14`, skipping the
advertiser-address bytes 8..13; the subsequent writes are at absolute
offsets 14 + k. -/
def ble_ll_conn_req_pdu_make (dev_addr rand_addr : Nat → Nat) (c : ConnSm)
    (buf : Nat → Nat) : Option (Nat → Nat) :=
  if c.own_addr_type = BLE_HCI_ADV_OWN_ADDR_PUBLIC ∨
      c.own_addr_type = BLE_HCI_ADV_OWN_ADDR_RANDOM then
    let pdu_type :=
      if c.own_addr_type = BLE_HCI_ADV_OWN_ADDR_RANDOM then
        BLE_ADV_PDU_TYPE_CONNECT_REQ ||| BLE_ADV_PDU_HDR_TXADD_RAND
      else BLE_ADV_PDU_TYPE_CONNECT_REQ
    let addr :=
      if c.own_addr_type = BLE_HCI_ADV_OWN_ADDR_RANDOM then rand_addr else dev_addr
    let b := wr8 buf 0 pdu_type
    let b := wr8 b 1 BLE_CONNECT_REQ_LEN
    let b := memcpy_bytes b BLE_LL_PDU_HDR_LEN BLE_DEV_ADDR_LEN addr
    let b := htole32w b 14 c.access_addr
    let b := wr8 b 18 c.crcinit
    let b := wr8 b 19 (c.crcinit / 256)
    let b := wr8 b 20 (c.crcinit / 65536)
    let b := wr8 b 21 c.tx_win_size
    let b := htole16w b 22 c.tx_win_off
    let b := htole16w b 24 c.conn_itvl
    let b := htole16w b 26 c.slave_latency
    let b := htole16w b 28 c.supervision_tmo
    let b := memcpy_bytes b 30 BLE_LL_CONN_CHMAP_LEN (fun k => c.chanmap.getD k 0)
    let b := wr8 b 35 (c.hop_inc ||| c.master_sca)
    some b
  else
    none

/-- `ble_ll_conn_create`.  `ble_ll_conn_sm_get` (allocate the head of
the free list, `NULL` when empty) and `ble_ll_conn_sm_start` (insert
the record at the head of the active list) are modelled from the spec's
registry contract, their code being outside this excerpt;
`ble_ll_scan_initiator_start`'s return code is the external parameter
`scan_start_rc` (0 = success).  After allocation and initialization the
source builds the connect-request PDU (`ble_ll_conn_req_pdu_make`, line
365): when the initialized record's `own_addr_type` is neither public
nor random the encoder hits `assert(0)` and the program halts before
the scan start ever runs — that fatal path is `none`.  The encoder
writes into the scan subsystem's global PDU buffer (here the external
`pdu_buf`, initial contents; the written buffer is that global, not a
field of `LLCreateState`, so only the encoder's success/fatal outcome
affects the state returned here; the byte layout is the subject of the
encoder's own theorem).  On scan-start failure the source removes the
record from the active list (`SLIST_REMOVE`) and appends it to the free
list (`STAILQ_INSERT_TAIL`). -/
def ble_ll_conn_create (dev_addr rand_addr pdu_buf : Nat → Nat)
    (st : LLCreateState) (b : Nat → Nat) (scan_start_rc : Nat) :
    Option (Nat × LLCreateState) :=
  if st.create_sm.isSome then
    some (BLE_ERR_CMD_DISALLOWED, st)
  else if st.scan_enabled then
    some (BLE_ERR_CMD_DISALLOWED, st)
  else
    match ble_ll_conn_create_validate b with
    | none => some (BLE_ERR_INV_HCI_CMD_PARMS, st)
    | some hcc =>
      match st.free_list with
      | [] => some (BLE_ERR_CONN_LIMIT, st)
      | connsm :: rest =>
        let c := ble_ll_conn_master_init connsm hcc
        match ble_ll_conn_req_pdu_make dev_addr rand_addr c pdu_buf with
        | none => none
        | some _ =>
          let started : LLCreateState :=
            { st with free_list := rest, active_list := c :: st.active_list }
          if scan_start_rc ≠ 0 then
            some (scan_start_rc,
              { started with active_list := started.active_list.erase c,
                             free_list := started.free_list ++ [c] })
          else
            some (BLE_ERR_SUCCESS, { started with create_sm := some c })

/-! ## Disconnect command (`ble_ll_conn_hci_disconnect_cmd`) -/

/-- The `switch (reason)` of the source: the fixed enumerated set of
protocol-legal disconnect reasons. -/
def disc_reason_valid (r : Nat) : Bool :=
  r == BLE_ERR_AUTH_FAIL || r == BLE_ERR_REM_USER_CONN_TERM ||
  r == BLE_ERR_RD_CONN_TERM_RESRCS || r == BLE_ERR_RD_CONN_TERM_PWROFF ||
  r == BLE_ERR_UNSUPP_FEATURE || r == BLE_ERR_UNIT_KEY_PAIRING ||
  r == BLE_ERR_CONN_PARMS

/-- Modelled from the spec: `ble_ll_conn_find_active_conn` (in
`ble_ll_conn.c`, not part of this excerpt) is the registry's
lookup-by-handle over the active records. -/
def ble_ll_conn_find_active_conn (conns : List ConnSm) (handle : Nat) : Option ConnSm :=
  conns.find? (fun c => c.conn_handle == handle)

/-- The in-place mutation `connsm->disconnect_reason = reason;
ble_ll_ctrl_terminate_start(connsm);` applied to the registry list: the
first record with the given handle gets the reason recorded and the
terminate control procedure marked pending (`ble_ll_ctrl_terminate_start`
is the external termination hand-off, modelled from the spec). -/
def disc_set_reason (l : List ConnSm) (handle reason : Nat) : List ConnSm :=
  match l with
  | [] => []
  | c :: rest =>
    if c.conn_handle == handle then
      { c with disconnect_reason := reason, terminate_pending := true } :: rest
    else
      c :: disc_set_reason rest handle reason

/-- `ble_ll_conn_hci_disconnect_cmd`.  The state is the active-record
list; the result is `none` exactly when the source's
`assert(!IS_PENDING_CTRL_PROC_M(connsm, BLE_LL_CTRL_PROC_TERMINATE))`
fires (a fatal internal-invariant violation), otherwise
`some (status, new state)`. -/
def ble_ll_conn_hci_disconnect_cmd (conns : List ConnSm) (b : Nat → Nat) :
    Option (Nat × List ConnSm) :=
  let handle := le16toh b 0
  let reason := b 2
  if handle ≤ BLE_LL_CONN_MAX_CONN_HANDLE then
    if disc_reason_valid reason then
      match ble_ll_conn_find_active_conn conns handle with
      | some connsm =>
        if connsm.disconnect_reason ≠ 0 then
          some (BLE_ERR_CMD_DISALLOWED, conns)
        else if connsm.terminate_pending then
          none
        else
          some (BLE_ERR_SUCCESS, disc_set_reason conns handle reason)
      | none => some (BLE_ERR_UNK_CONN_ID, conns)
    else
      some (BLE_ERR_INV_HCI_CMD_PARMS, conns)
  else
    some (BLE_ERR_INV_HCI_CMD_PARMS, conns)

/-! ## Batched number-of-completed-packets event
(`ble_ll_conn_num_comp_pkts_event_send`)

The event buffer contents are modelled at entry level: a report is the
list of its `(handle, completed_pkts)` pairs in write order.  The
source stages the counts at a fixed offset inside the same buffer and
compacts them with `memmove` before sending; the spec (§4.3) records
that staging as an internal encoding strategy with no external
contract, the externally visible content being the `(handle, count)`
entries in order.  Event-buffer acquisition `os_memblock_get` is the
external parameter `acquire` (call index to success). -/

/-- The loop's eligibility test: connection not idle, and either
completed packets accumulated or a non-empty transmit queue. -/
def ncp_eligible (c : ConnSm) : Bool :=
  (c.conn_state != BLE_LL_CONN_STATE_IDLE) &&
    (c.completed_pkts != 0 || !c.txq_empty)

/-- Result of the `SLIST_FOREACH` loop: next acquisition index, the
open (unsent) buffer's entries if any, the reports sent so far, and the
processed connection list. -/
structure NcpRes where
  acq : Nat
  cur : Option (List (Nat × Nat))
  sent : List (List (Nat × Nat))
  conns : List ConnSm
deriving Repr, DecidableEq

/-- The `SLIST_FOREACH` body of `ble_ll_conn_num_comp_pkts_event_send`:
per eligible record, acquire a buffer when none is open (breaking out of
the loop when acquisition fails, leaving the remaining records
untouched), append the `(handle, completed_pkts)` entry, zero the
record's counter, and send the buffer when it reaches 60 entries. -/
def ncp_loop (acquire : Nat → Bool) :
    List ConnSm → Nat → Option (List (Nat × Nat)) → List (List (Nat × Nat)) →
    List ConnSm → NcpRes
  | [], k, cur, sent, out => ⟨k, cur, sent, out⟩
  | c :: rest, k, cur, sent, out =>
    if ncp_eligible c then
      match cur with
      | none =>
        if acquire k then
          let es := [(c.conn_handle, c.completed_pkts)]
          if es.length = 60 then
            ncp_loop acquire rest (k + 1) none (sent ++ [es])
              (out ++ [{ c with completed_pkts := 0 }])
          else
            ncp_loop acquire rest (k + 1) (some es) sent
              (out ++ [{ c with completed_pkts := 0 }])
        else
          ⟨k, none, sent, out ++ c :: rest⟩
      | some es0 =>
        let es := es0 ++ [(c.conn_handle, c.completed_pkts)]
        if es.length = 60 then
          ncp_loop acquire rest k none (sent ++ [es])
            (out ++ [{ c with completed_pkts := 0 }])
        else
          ncp_loop acquire rest k (some es) sent
            (out ++ [{ c with completed_pkts := 0 }])
    else
      ncp_loop acquire rest k cur sent (out ++ [c])

/-- State touched by the notifier: the active connection list and
`g_ble_ll_next_num_comp_pkt_evt`. -/
structure NcpState where
  conns : List ConnSm
  next_evt : Nat
deriving Repr, DecidableEq

/-- `ble_ll_conn_num_comp_pkts_event_send`: rate gate by wraparound
`uint32_t` subtraction against the os tick count `now`
(`os_time_get()`; the task never blocks, so both reads of the clock in
one invocation see the same tick), then the record loop, then the final
partial-buffer flush; the next-eligible gate advances only when an
event was sent.  Returns the new state and the sent reports. -/
def ble_ll_conn_num_comp_pkts_event_send (acquire : Nat → Bool) (now : Nat)
    (st : NcpState) : NcpState × List (List (Nat × Nat)) :=
  if u32_sub st.next_evt now < BLE_LL_NUM_COMP_PKT_RATE then
    (st, [])
  else
    let r := ncp_loop acquire st.conns 0 none [] []
    let sentAll := r.sent ++ (match r.cur with | some es => [es] | none => [])
    ({ conns := r.conns,
       next_evt :=
         if sentAll.isEmpty then st.next_evt
         else (now + BLE_LL_NUM_COMP_PKT_RATE) % U32 },
     sentAll)

/-! ### Specification-side helpers for the notifier theorems -/

/-- The `(handle, count)` entries of the eligible records, in list
order. -/
def ncp_entries (l : List ConnSm) : List (Nat × Nat) :=
  (l.filter ncp_eligible).map fun c => (c.conn_handle, c.completed_pkts)

/-- Every eligible record with its completed-packets counter zeroed. -/
def ncp_reset (l : List ConnSm) : List ConnSm :=
  l.map fun c => if ncp_eligible c then { c with completed_pkts := 0 } else c

/-- The first `n` eligible records with their counters zeroed;
everything else (including eligible records after the n-th) kept. -/
def ncp_resetFirst : Nat → List ConnSm → List ConnSm
  | _, [] => []
  | 0, l => l
  | n + 1, c :: rest =>
    if ncp_eligible c then
      { c with completed_pkts := 0 } :: ncp_resetFirst n rest
    else
      c :: ncp_resetFirst (n + 1) rest

/-- Entries still fitting in the open buffer: `60 - |es|` for an open
buffer, `0` when none is open. -/
def ncp_slack : Option (List (Nat × Nat)) → Nat
  | none => 0
  | some es => 60 - es.length

/-- Split a list of entries into its full 60-entry chunks and the
remainder. -/
def chunk60 (l : List (Nat × Nat)) : List (List (Nat × Nat)) × List (Nat × Nat) :=
  if h : l.length < 60 then ([], l)
  else
    let r := chunk60 (l.drop 60)
    (l.take 60 :: r.1, r.2)
termination_by l.length
decreasing_by simp only [List.length_drop]; omega

/-! ## Concrete inputs used by witnesses and counterexamples -/

/-- Empty controller state: nothing pending, scanning off, empty
registry. -/
def llst_empty : LLCreateState := ⟨none, false, [], []⟩

/-- Create-connection command bytes with `conn_itvl_min = 3200`,
`conn_itvl_max = 3436`, `conn_latency = 499`,
`supervision_timeout = 3200` (all other fields valid): the minimum
legal supervision timeout `2 × 3436 × 1250 µs × (1 + 499)
= 4 295 000 000 µs` overflows `uint32_t` to `32 704`. -/
def c1_cmd_overflow : Nat → Nat := fun i =>
  [16, 0, 16, 0, 0, 0, 0, 0, 0, 0, 0, 0, 0,
   128, 12, 108, 13, 243, 1, 128, 12, 0, 0, 0, 0].getD i 0

/-- Create-connection command bytes with `conn_itvl_max = 40`,
`conn_latency = 0`, `supervision_timeout = 10` (the boundary case of
the cross-check). -/
def c1_cmd_t10 : Nat → Nat := fun i =>
  [16, 0, 16, 0, 0, 0, 0, 0, 0, 0, 0, 0, 0,
   40, 0, 40, 0, 0, 0, 10, 0, 0, 0, 0, 0].getD i 0

/-- Same as `c1_cmd_t10` but with `supervision_timeout = 11`. -/
def c1_cmd_t11 : Nat → Nat := fun i =>
  [16, 0, 16, 0, 0, 0, 0, 0, 0, 0, 0, 0, 0,
   40, 0, 40, 0, 0, 0, 11, 0, 0, 0, 0, 0].getD i 0

/-- A fully valid create-connection command (`conn_itvl = 40`,
`supervision_timeout = 100` units). -/
def c5_cmd_good : Nat → Nat := fun i =>
  [16, 0, 16, 0, 0, 0, 0, 0, 0, 0, 0, 0, 0,
   40, 0, 40, 0, 0, 0, 100, 0, 0, 0, 0, 0].getD i 0

/-- The `hci_create_conn` that `c5_cmd_good` parses to. -/
def c5_hcc_good : HciCreateConn :=
  { scan_itvl := 16, scan_window := 16, filter_policy := 0,
    peer_addr_type := 0, peer_addr := [0, 0, 0, 0, 0, 0],
    own_addr_type := 0, conn_itvl_min := 40, conn_itvl_max := 40,
    conn_latency := 0, supervision_timeout := 100, min_ce_len := 0,
    max_ce_len := 0 }

/-- A concrete master-role record with random own address, used to
exercise the connect-request encoder (`master_sca` = 96 = 3 × 32, a
high-3-bits value). -/
def cC2 : ConnSm :=
  { connsm0 with conn_role := 1, own_addr_type := 1, access_addr := 305419896,
                 crcinit := 11259375, tx_win_size := 3, tx_win_off := 700,
                 conn_itvl := 40, slave_latency := 2, supervision_tmo := 100,
                 chanmap := [1, 2, 3, 4, 5], hop_inc := 7, master_sca := 96 }

/-- 61 eligible connection records (handles 0..60, each with completed
packets and an empty transmit queue): exactly buffer capacity + 1. -/
def conns61 : List ConnSm :=
  (List.range 61).map fun i =>
    { connsm0 with conn_handle := i, conn_state := 1, completed_pkts := i + 1 }

/-- One eligible record whose transmit queue is non-empty (it stays
eligible after its completed-packets counter is reset). -/
def ncpRec1 : ConnSm :=
  { connsm0 with conn_handle := 1, conn_state := 1, completed_pkts := 5,
                 txq_empty := false }

/-- Notifier state holding `ncpRec1`, gate initialized to the past. -/
def ncpSt1 : NcpState := ⟨[ncpRec1], 0⟩

/-! ## Theorems -/

/-- Claim C1 (code bug): the supervision-timeout cross-check is
computed in `uint32_t` and overflows.  At `conn_itvl_min = 3200`,
`conn_itvl_max = 3436`, `conn_latency = 499`,
`supervision_timeout = 3200` — parameters passing every earlier
check — the command is NOT rejected with invalid parameters (it reaches
record allocation and fails only with `BLE_ERR_CONN_LIMIT` on an empty
pool), although `3200 × 10000 µs` does not strictly exceed
`2 × 3436 × 1250 µs × (1 + 499)` (second conjunct), so the claim's
condition demands rejection.  The last two conjuncts check the claim's
concrete boundary case, which the code honors: with
`conn_itvl_max = 40`, `conn_latency = 0`, a timeout of exactly 10 units
is rejected and 11 units passes the check. -/
theorem ble_ll_conn_create_spvn_tmo_overflow :
    ble_ll_conn_create (fun _ => 0) (fun _ => 0) (fun _ => 0) llst_empty
        c1_cmd_overflow 0 = some (BLE_ERR_CONN_LIMIT, llst_empty) ∧
    3200 * 10000 ≤ 2 * 3436 * 1250 * (1 + 499) ∧
    ble_ll_conn_create (fun _ => 0) (fun _ => 0) (fun _ => 0) llst_empty
        c1_cmd_t10 0 = some (BLE_ERR_INV_HCI_CMD_PARMS, llst_empty) ∧
    ble_ll_conn_create (fun _ => 0) (fun _ => 0) (fun _ => 0) llst_empty
        c1_cmd_t11 0 = some (BLE_ERR_CONN_LIMIT, llst_empty) := by
  decide

/-- Claim C3: a create-connection command issued while a master-role
creation is pending (`g_ble_ll_conn_create_sm` set) or while scanning
is enabled returns `BLE_ERR_CMD_DISALLOWED` and leaves the state
unchanged, for every command buffer and every scan-start outcome (so no
parameter is even consulted). -/
theorem ble_ll_conn_create_disallowed_when_pending_or_scanning
    (dev_addr rand_addr pdu_buf : Nat → Nat)
    (st : LLCreateState) (b : Nat → Nat) (sr : Nat)
    (h : st.create_sm ≠ none ∨ st.scan_enabled = true) :
    ble_ll_conn_create dev_addr rand_addr pdu_buf st b sr =
      some (BLE_ERR_CMD_DISALLOWED, st) := by
  cases hc : st.create_sm with
  | some c => simp [ble_ll_conn_create, hc]
  | none =>
    rcases h with h | h
    · exact absurd hc h
    · simp [ble_ll_conn_create, hc, h]

theorem ble_ll_conn_create_disallowed_when_pending_or_scanning_witness :
    ble_ll_conn_create (fun _ => 0) (fun _ => 0) (fun _ => 0)
        ⟨some connsm0, false, [], []⟩ (fun _ => 0) 0 =
      some (BLE_ERR_CMD_DISALLOWED, ⟨some connsm0, false, [], []⟩) :=
  ble_ll_conn_create_disallowed_when_pending_or_scanning
    (fun _ => 0) (fun _ => 0) (fun _ => 0)
    ⟨some connsm0, false, [], []⟩ (fun _ => 0) 0 (Or.inl (by simp))

/-- Claim C4: a create-connection command failing any of the
parameter-validation checks (`ble_ll_conn_create_validate` = `none`),
issued when nothing is pending and scanning is off, returns
`BLE_ERR_INV_HCI_CMD_PARMS` with the state unchanged: no record leaves
the free pool and nothing is mutated. -/
theorem ble_ll_conn_create_invalid_params_no_mutation
    (dev_addr rand_addr pdu_buf : Nat → Nat)
    (st : LLCreateState) (b : Nat → Nat) (sr : Nat)
    (h1 : st.create_sm = none) (h2 : st.scan_enabled = false)
    (h3 : ble_ll_conn_create_validate b = none) :
    ble_ll_conn_create dev_addr rand_addr pdu_buf st b sr =
      some (BLE_ERR_INV_HCI_CMD_PARMS, st) := by
  simp [ble_ll_conn_create, h1, h2, h3]

theorem ble_ll_conn_create_invalid_params_no_mutation_witness :
    ble_ll_conn_create (fun _ => 0) (fun _ => 0) (fun _ => 0)
        ⟨none, false, [connsm0], []⟩ (fun _ => 0) 7 =
      some (BLE_ERR_INV_HCI_CMD_PARMS, ⟨none, false, [connsm0], []⟩) :=
  ble_ll_conn_create_invalid_params_no_mutation
    (fun _ => 0) (fun _ => 0) (fun _ => 0)
    ⟨none, false, [connsm0], []⟩ (fun _ => 0) 7 rfl rfl (by decide)

/-- Claim C5: after validation and allocation (free list non-empty),
for a command whose own address type is public or random — so that the
connect-request encoder succeeds instead of halting on its `assert(0)`
and the scan start is reached — if the scanning-subsystem initiator
start fails (`sr ≠ 0`) the record is removed from the active registry
and appended back to the free pool, the pending-creation reference
stays unset, and the failure code is returned; if the start succeeds
(`sr = 0`) the pending-creation reference is set to the new record and
success is returned. -/
theorem ble_ll_conn_create_scan_start_rollback
    (dev_addr rand_addr pdu_buf : Nat → Nat)
    (st : LLCreateState) (b : Nat → Nat) (sr : Nat) (hcc : HciCreateConn)
    (c0 : ConnSm) (rest : List ConnSm)
    (h1 : st.create_sm = none) (h2 : st.scan_enabled = false)
    (h3 : ble_ll_conn_create_validate b = some hcc)
    (h4 : st.free_list = c0 :: rest)
    (htype : hcc.own_addr_type = BLE_HCI_ADV_OWN_ADDR_PUBLIC ∨
             hcc.own_addr_type = BLE_HCI_ADV_OWN_ADDR_RANDOM) :
    (sr ≠ 0 →
      ble_ll_conn_create dev_addr rand_addr pdu_buf st b sr =
        some (sr, { create_sm := none, scan_enabled := st.scan_enabled,
                    free_list := rest ++ [ble_ll_conn_master_init c0 hcc],
                    active_list := st.active_list })) ∧
    (sr = 0 →
      ble_ll_conn_create dev_addr rand_addr pdu_buf st b sr =
        some (BLE_ERR_SUCCESS,
          { create_sm := some (ble_ll_conn_master_init c0 hcc),
            scan_enabled := st.scan_enabled,
            free_list := rest,
            active_list := ble_ll_conn_master_init c0 hcc :: st.active_list })) := by
  rcases htype with ht | ht <;> constructor <;> intro hsr <;>
    simp [ble_ll_conn_create, h1, h2, h3, h4, hsr, List.erase_cons_head,
      ble_ll_conn_req_pdu_make, ble_ll_conn_master_init, ht,
      BLE_HCI_ADV_OWN_ADDR_PUBLIC, BLE_HCI_ADV_OWN_ADDR_RANDOM]

theorem ble_ll_conn_create_scan_start_rollback_witness :
    ble_ll_conn_create (fun _ => 0) (fun _ => 0) (fun _ => 0)
        ⟨none, false, [connsm0], []⟩ c5_cmd_good 7 =
      some (7, { create_sm := none, scan_enabled := false,
                 free_list := [] ++ [ble_ll_conn_master_init connsm0 c5_hcc_good],
                 active_list := [] }) :=
  (ble_ll_conn_create_scan_start_rollback (fun _ => 0) (fun _ => 0) (fun _ => 0)
      ⟨none, false, [connsm0], []⟩
      c5_cmd_good 7 c5_hcc_good connsm0 [] rfl rfl (by decide) rfl
      (by decide)).1
    (by decide)

/-- Helper: updating the first record matching a handle makes the
registry lookup return that record with the reason recorded and the
terminate procedure marked pending. -/
theorem disc_set_reason_find (l : List ConnSm) (h r : Nat) (c : ConnSm)
    (hf : l.find? (fun x => x.conn_handle == h) = some c) :
    (disc_set_reason l h r).find? (fun x => x.conn_handle == h) =
      some { c with disconnect_reason := r, terminate_pending := true } := by
  induction l with
  | nil => simp at hf
  | cons x rest ih =>
    cases hx : x.conn_handle == h with
    | true =>
      simp only [List.find?_cons, hx] at hf
      obtain rfl : x = c := by simpa using hf
      simp [disc_set_reason, hx, List.find?_cons]
    | false =>
      simp only [List.find?_cons, hx] at hf
      simp only [disc_set_reason, hx, Bool.false_eq_true, if_false, List.find?_cons]
      exact ih hf

/-- Claim C6: a disconnect command whose handle exceeds
`BLE_LL_CONN_MAX_CONN_HANDLE` or whose reason code is outside the
enumerated legal set returns `BLE_ERR_INV_HCI_CMD_PARMS` with no state
change, regardless of the registry contents (so even when the handle
names an active record); in particular reason `0x00` is always
rejected. -/
theorem ble_ll_conn_hci_disconnect_cmd_invalid_params :
    (∀ (conns : List ConnSm) (b : Nat → Nat),
        BLE_LL_CONN_MAX_CONN_HANDLE < le16toh b 0 ∨ disc_reason_valid (b 2) = false →
        ble_ll_conn_hci_disconnect_cmd conns b =
          some (BLE_ERR_INV_HCI_CMD_PARMS, conns)) ∧
    (∀ (conns : List ConnSm) (b : Nat → Nat), b 2 = 0 →
        ble_ll_conn_hci_disconnect_cmd conns b =
          some (BLE_ERR_INV_HCI_CMD_PARMS, conns)) := by
  constructor
  · intro conns b h
    rcases h with h | h
    · simp only [ble_ll_conn_hci_disconnect_cmd]
      rw [if_neg (by omega)]
    · by_cases hh : le16toh b 0 ≤ BLE_LL_CONN_MAX_CONN_HANDLE
      · simp only [ble_ll_conn_hci_disconnect_cmd]
        rw [if_pos hh, if_neg (by simp [h])]
      · simp only [ble_ll_conn_hci_disconnect_cmd]
        rw [if_neg hh]
  · intro conns b h
    by_cases hh : le16toh b 0 ≤ BLE_LL_CONN_MAX_CONN_HANDLE
    · simp only [ble_ll_conn_hci_disconnect_cmd]
      rw [if_pos hh,
        if_neg (by intro hcon; rw [h] at hcon; exact absurd hcon (by decide))]
    · simp only [ble_ll_conn_hci_disconnect_cmd]
      rw [if_neg hh]

theorem ble_ll_conn_hci_disconnect_cmd_invalid_params_witness :
    ble_ll_conn_hci_disconnect_cmd
        [{ connsm0 with conn_handle := 1, conn_state := 1 }] (fun _ => 1) =
      some (BLE_ERR_INV_HCI_CMD_PARMS,
            [{ connsm0 with conn_handle := 1, conn_state := 1 }]) :=
  ble_ll_conn_hci_disconnect_cmd_invalid_params.1
    [{ connsm0 with conn_handle := 1, conn_state := 1 }] (fun _ => 1)
    (Or.inr (by decide))

/-- Claim C7: for a disconnect command with valid handle and reason
resolving to an active record: if the record's `disconnect_reason` is
already set the command returns `BLE_ERR_CMD_DISALLOWED` and changes
nothing (hence the same answer on every repeated call); if it is unset
(and no terminate procedure is pending, the source's asserted
invariant) the command records the reason, marks the termination
hand-off started, and returns success — and the recorded reason is
nonzero, so the unset → set transition can happen at most once. -/
theorem ble_ll_conn_hci_disconnect_cmd_idempotency_guard
    (conns : List ConnSm) (b : Nat → Nat) (c : ConnSm)
    (hh : le16toh b 0 ≤ BLE_LL_CONN_MAX_CONN_HANDLE)
    (hr : disc_reason_valid (b 2) = true)
    (hf : ble_ll_conn_find_active_conn conns (le16toh b 0) = some c) :
    (c.disconnect_reason ≠ 0 →
      ble_ll_conn_hci_disconnect_cmd conns b = some (BLE_ERR_CMD_DISALLOWED, conns)) ∧
    (c.disconnect_reason = 0 → c.terminate_pending = false →
      ble_ll_conn_hci_disconnect_cmd conns b =
        some (BLE_ERR_SUCCESS, disc_set_reason conns (le16toh b 0) (b 2)) ∧
      ble_ll_conn_find_active_conn (disc_set_reason conns (le16toh b 0) (b 2))
          (le16toh b 0) =
        some { c with disconnect_reason := b 2, terminate_pending := true } ∧
      b 2 ≠ 0) := by
  have hr0 : b 2 ≠ 0 := by
    intro h0
    rw [h0] at hr
    exact absurd hr (by decide)
  constructor
  · intro hd
    simp [ble_ll_conn_hci_disconnect_cmd, hh, hr, hf, hd]
  · intro hd ht
    refine ⟨?_, ?_, hr0⟩
    · simp [ble_ll_conn_hci_disconnect_cmd, hh, hr, hf, hd, ht]
    · exact disc_set_reason_find conns (le16toh b 0) (b 2) c hf

theorem ble_ll_conn_hci_disconnect_cmd_idempotency_guard_witness :
    ble_ll_conn_hci_disconnect_cmd
        [{ connsm0 with conn_handle := 1, conn_state := 1 }]
        (fun i => [1, 0, 19].getD i 0) =
      some (BLE_ERR_SUCCESS,
            disc_set_reason [{ connsm0 with conn_handle := 1, conn_state := 1 }] 1 19) :=
  ((ble_ll_conn_hci_disconnect_cmd_idempotency_guard
      [{ connsm0 with conn_handle := 1, conn_state := 1 }]
      (fun i => [1, 0, 19].getD i 0)
      { connsm0 with conn_handle := 1, conn_state := 1 }
      (by decide) (by decide) (by decide)).2 rfl rfl).1

/-- Helper: `chunk60` of a short list is a single remainder. -/
theorem chunk60_lt (l : List (Nat × Nat)) (h : l.length < 60) :
    chunk60 l = ([], l) := by
  rw [chunk60]
  simp [h]

/-- Helper: `chunk60` of a long list peels off its first 60 entries. -/
theorem chunk60_ge (l : List (Nat × Nat)) (h : 60 ≤ l.length) :
    chunk60 l = (l.take 60 :: (chunk60 (l.drop 60)).1, (chunk60 (l.drop 60)).2) := by
  rw [chunk60]
  simp [Nat.not_lt.mpr h]

/-- Helper: `chunk60` after a full 60-entry prefix. -/
theorem chunk60_append (l m : List (Nat × Nat)) (h : l.length = 60) :
    chunk60 (l ++ m) = (l :: (chunk60 m).1, (chunk60 m).2) := by
  have h60 : 60 ≤ (l ++ m).length := by simp [h]
  have ht : (l ++ m).take 60 = l := by rw [← h]; exact List.take_left l m
  have hd : (l ++ m).drop 60 = m := by rw [← h]; exact List.drop_left l m
  rw [chunk60_ge _ h60, ht, hd]

/-- Helper: `chunk60` of a list of length `60·j` yields `j` full chunks
and no remainder, and the chunks concatenate back to the list. -/
theorem chunk60_full :
    ∀ (j : Nat) (l : List (Nat × Nat)), l.length = 60 * j →
      (chunk60 l).1.length = j ∧ (chunk60 l).1.flatten = l ∧
      (∀ b2 ∈ (chunk60 l).1, b2.length = 60) ∧ (chunk60 l).2 = [] := by
  intro j
  induction j with
  | zero =>
    intro l hl
    have : l = [] := List.length_eq_zero.mp (by omega)
    subst this
    simp [chunk60_lt [] (by simp)]
  | succ j ih =>
    intro l hl
    have h60 : 60 ≤ l.length := by omega
    have hdrop : (l.drop 60).length = 60 * j := by
      simp only [List.length_drop]
      omega
    obtain ⟨ih1, ih2, ih3, ih4⟩ := ih (l.drop 60) hdrop
    rw [chunk60_ge l h60]
    refine ⟨by simp [ih1], ?_, ?_, by simpa using ih4⟩
    · simp only [List.flatten_cons, ih2, List.take_append_drop]
    · intro b2 hb2
      rcases List.mem_cons.mp hb2 with hb2 | hb2
      · subst hb2
        simp [List.length_take]
        omega
      · exact ih3 b2 hb2

/-- Loop invariant of `ncp_loop` when every buffer acquisition
succeeds: the reports grow by the full 60-entry chunks of the pending
entries followed by the eligible entries of the remaining records,
every eligible record is reset, and the open buffer holds the
remainder. -/
theorem ncp_loop_all_acquire (acquire : Nat → Bool) (hacq : ∀ i, acquire i = true) :
    ∀ (conns : List ConnSm) (k : Nat) (cur : Option (List (Nat × Nat)))
      (sent : List (List (Nat × Nat))) (out : List ConnSm),
      (∀ es, cur = some es → 0 < es.length ∧ es.length < 60) →
      (ncp_loop acquire conns k cur sent out).sent =
          sent ++ (chunk60 (cur.getD [] ++ ncp_entries conns)).1 ∧
      (ncp_loop acquire conns k cur sent out).conns = out ++ ncp_reset conns ∧
      (ncp_loop acquire conns k cur sent out).cur =
          (if (chunk60 (cur.getD [] ++ ncp_entries conns)).2.isEmpty then none
           else some (chunk60 (cur.getD [] ++ ncp_entries conns)).2) := by
  intro conns
  induction conns with
  | nil =>
    intro k cur sent out hcur
    cases cur with
    | none =>
      simp [ncp_loop, ncp_entries, ncp_reset, chunk60_lt [] (by simp)]
    | some es =>
      obtain ⟨hpos, hlt⟩ := hcur es rfl
      have hne : es.isEmpty = false := by
        cases es with
        | nil => simp at hpos
        | cons a t => simp
      simp [ncp_loop, ncp_entries, ncp_reset, chunk60_lt es hlt, hne]
  | cons c rest ih =>
    intro k cur sent out hcur
    cases helig : ncp_eligible c with
    | false =>
      have hent : ncp_entries (c :: rest) = ncp_entries rest := by
        simp [ncp_entries, helig]
      have hres : ncp_reset (c :: rest) = c :: ncp_reset rest := by
        simp [ncp_reset, helig]
      obtain ⟨ih1, ih2, ih3⟩ := ih k cur sent (out ++ [c]) hcur
      simp only [ncp_loop, helig, Bool.false_eq_true, if_false]
      rw [hent, hres]
      exact ⟨ih1, by rw [ih2]; simp, ih3⟩
    | true =>
      have hent : ncp_entries (c :: rest) =
          (c.conn_handle, c.completed_pkts) :: ncp_entries rest := by
        simp [ncp_entries, helig]
      have hres : ncp_reset (c :: rest) =
          { c with completed_pkts := 0 } :: ncp_reset rest := by
        simp [ncp_reset, helig]
      cases cur with
      | none =>
        obtain ⟨ih1, ih2, ih3⟩ :=
          ih (k + 1) (some [(c.conn_handle, c.completed_pkts)]) sent
            (out ++ [{ c with completed_pkts := 0 }])
            (by intro es hes; cases hes; simp)
        simp only [ncp_loop, helig, hacq k, if_true, List.length_cons,
          List.length_nil, Nat.zero_add, Nat.reduceEqDiff, if_false]
        rw [hent, hres]
        refine ⟨by simpa using ih1, by rw [ih2]; simp, by simpa using ih3⟩
      | some es0 =>
        obtain ⟨hpos0, hlt0⟩ := hcur es0 rfl
        by_cases h60 : (es0 ++ [(c.conn_handle, c.completed_pkts)]).length = 60
        · obtain ⟨ih1, ih2, ih3⟩ :=
            ih k none (sent ++ [es0 ++ [(c.conn_handle, c.completed_pkts)]])
              (out ++ [{ c with completed_pkts := 0 }])
              (by intro es hes; cases hes)
          simp only [ncp_loop, helig, h60, if_true]
          rw [hent, hres]
          simp only [Option.getD_some]
          have hcomb :
              es0 ++ (c.conn_handle, c.completed_pkts) :: ncp_entries rest =
                (es0 ++ [(c.conn_handle, c.completed_pkts)]) ++ ncp_entries rest := by
            simp
          rw [hcomb, chunk60_append _ _ h60]
          refine ⟨?_, by rw [ih2]; simp, by simpa using ih3⟩
          · rw [ih1]
            simp
        · obtain ⟨ih1, ih2, ih3⟩ :=
            ih k (some (es0 ++ [(c.conn_handle, c.completed_pkts)])) sent
              (out ++ [{ c with completed_pkts := 0 }])
              (by
                intro es hes
                cases hes
                constructor
                · simp
                · simp only [List.length_append, List.length_cons, List.length_nil] at h60 ⊢
                  omega)
          simp only [ncp_loop, helig, h60, if_false, if_true]
          rw [hent, hres]
          simp only [Option.getD_some]
          have hcomb :
              es0 ++ (c.conn_handle, c.completed_pkts) :: ncp_entries rest =
                (es0 ++ [(c.conn_handle, c.completed_pkts)]) ++ ncp_entries rest := by
            simp
          rw [hcomb]
          refine ⟨by simpa using ih1, by rw [ih2]; simp, by simpa using ih3⟩

/-- Claim C8: when the notifier runs past the rate gate with exactly
61 = capacity + 1 eligible records and every buffer acquisition
succeeds, it sends exactly two reports — the first with exactly 60
`(handle, count)` entries, the second with exactly 1 — whose
concatenation is exactly the eligible records' entries in order (no
handle duplicated or omitted), every eligible record's
`completed_pkts` is reset to zero (ineligible records untouched), and
the next-eligible gate advances. -/
theorem ncp_event_send_two_reports_at_capacity_plus_one
    (acquire : Nat → Bool) (now : Nat) (st : NcpState)
    (hacq : ∀ i, acquire i = true)
    (hgate : BLE_LL_NUM_COMP_PKT_RATE ≤ u32_sub st.next_evt now)
    (helig : (st.conns.filter ncp_eligible).length = 61) :
    (ble_ll_conn_num_comp_pkts_event_send acquire now st).2.length = 2 ∧
    ((ble_ll_conn_num_comp_pkts_event_send acquire now st).2.getD 0 []).length = 60 ∧
    ((ble_ll_conn_num_comp_pkts_event_send acquire now st).2.getD 1 []).length = 1 ∧
    (ble_ll_conn_num_comp_pkts_event_send acquire now st).2.flatten =
      ncp_entries st.conns ∧
    (ble_ll_conn_num_comp_pkts_event_send acquire now st).1.conns =
      ncp_reset st.conns ∧
    (ble_ll_conn_num_comp_pkts_event_send acquire now st).1.next_evt =
      (now + BLE_LL_NUM_COMP_PKT_RATE) % U32 := by
  have hE : (ncp_entries st.conns).length = 61 := by
    simp [ncp_entries, helig]
  obtain ⟨h1, h2, h3⟩ :=
    ncp_loop_all_acquire acquire hacq st.conns 0 none [] []
      (by intro es hes; cases hes)
  simp only [Option.getD_none, List.nil_append] at h1 h2 h3
  have h60 : 60 ≤ (ncp_entries st.conns).length := by omega
  have hdlt : ((ncp_entries st.conns).drop 60).length < 60 := by
    simp only [List.length_drop]
    omega
  have hc : chunk60 (ncp_entries st.conns) =
      ([(ncp_entries st.conns).take 60], (ncp_entries st.conns).drop 60) := by
    rw [chunk60_ge _ h60, chunk60_lt _ hdlt]
  rw [hc] at h1 h3
  have hdne : ((ncp_entries st.conns).drop 60).isEmpty = false := by
    cases hh : (ncp_entries st.conns).drop 60 with
    | nil =>
      exfalso
      have := congrArg List.length hh
      simp only [List.length_drop, List.length_nil] at this
      omega
    | cons a t => simp
  rw [hdne] at h3
  simp only [Bool.false_eq_true, if_false] at h3
  simp only [ble_ll_conn_num_comp_pkts_event_send]
  rw [if_neg (by omega)]
  simp only [h1, h2, h3, List.nil_append]
  have htk : ((ncp_entries st.conns).take 60).length = 60 := by
    simp only [List.length_take]
    omega
  have hdk : ((ncp_entries st.conns).drop 60).length = 1 := by
    simp only [List.length_drop]
    omega
  refine ⟨by simp, by simp [List.getD, htk], by simp [List.getD, hdk], ?_, by simp, by simp⟩
  simp [List.take_append_drop]

theorem ncp_event_send_two_reports_at_capacity_plus_one_witness :
    (ble_ll_conn_num_comp_pkts_event_send (fun _ => true) 5000 ⟨conns61, 0⟩).2.length = 2 ∧
    ((ble_ll_conn_num_comp_pkts_event_send (fun _ => true) 5000 ⟨conns61, 0⟩).2.getD 0 []).length = 60 ∧
    ((ble_ll_conn_num_comp_pkts_event_send (fun _ => true) 5000 ⟨conns61, 0⟩).2.getD 1 []).length = 1 ∧
    (ble_ll_conn_num_comp_pkts_event_send (fun _ => true) 5000 ⟨conns61, 0⟩).2.flatten =
      ncp_entries conns61 ∧
    (ble_ll_conn_num_comp_pkts_event_send (fun _ => true) 5000 ⟨conns61, 0⟩).1.conns =
      ncp_reset conns61 ∧
    (ble_ll_conn_num_comp_pkts_event_send (fun _ => true) 5000 ⟨conns61, 0⟩).1.next_evt =
      (5000 + BLE_LL_NUM_COMP_PKT_RATE) % U32 :=
  ncp_event_send_two_reports_at_capacity_plus_one (fun _ => true) 5000 ⟨conns61, 0⟩
    (fun _ => rfl) (by decide) (by decide)

/-- Claim C9 counterexample: two invocations of the notifier at the
very same tick (elapsed 0 < 2000 = the minimum rate-limit interval,
hence "twice within the minimum interval") each send a report: after
the first send the gate holds `now + 2000`, and the wraparound
comparison `(uint32_t)(gate - now) < 2000` is false at distance exactly
2000, so the second call passes the gate; the record stays eligible
through its non-empty transmit queue.  This refutes "produces at most
one sent report / the second invocation returns without sending
anything". -/
theorem ncp_event_send_same_tick_counterexample :
    (ble_ll_conn_num_comp_pkts_event_send (fun _ => true) 5000 ncpSt1).2 =
      [[(1, 5)]] ∧
    (ble_ll_conn_num_comp_pkts_event_send (fun _ => true) 5000
        (ble_ll_conn_num_comp_pkts_event_send (fun _ => true) 5000 ncpSt1).1).2 =
      [[(1, 0)]] := by
  decide

/-- Claim C9 (amended): a second invocation of the notifier at least
one tick after an invocation that actually sent, and no more than the
minimum rate-limit interval later, is a complete no-op: it returns the
state unchanged (in particular it resets no record's `completed_pkts`)
and sends nothing.  (At zero elapsed ticks the gate comparison computes
exactly the interval, which is not `<` it, and lets the call through —
the counterexample above.)  Second conjunct: on any invocation the
next-eligible gate is advanced exactly when at least one report was
sent, to the invocation time plus the interval. -/
theorem ncp_event_send_rate_limited_second_call :
    (∀ (acquire acquire2 : Nat → Bool) (st : NcpState) (now d : Nat),
        1 ≤ d → d ≤ BLE_LL_NUM_COMP_PKT_RATE →
        (ble_ll_conn_num_comp_pkts_event_send acquire now st).2 ≠ [] →
        ble_ll_conn_num_comp_pkts_event_send acquire2 (now + d)
            (ble_ll_conn_num_comp_pkts_event_send acquire now st).1 =
          ((ble_ll_conn_num_comp_pkts_event_send acquire now st).1, [])) ∧
    (∀ (acquire : Nat → Bool) (st : NcpState) (now : Nat),
        ((ble_ll_conn_num_comp_pkts_event_send acquire now st).2 = [] →
          (ble_ll_conn_num_comp_pkts_event_send acquire now st).1.next_evt =
            st.next_evt) ∧
        ((ble_ll_conn_num_comp_pkts_event_send acquire now st).2 ≠ [] →
          (ble_ll_conn_num_comp_pkts_event_send acquire now st).1.next_evt =
            (now + BLE_LL_NUM_COMP_PKT_RATE) % U32)) := by
  have hadv : ∀ (acquire : Nat → Bool) (st : NcpState) (now : Nat),
      ((ble_ll_conn_num_comp_pkts_event_send acquire now st).2 = [] →
        (ble_ll_conn_num_comp_pkts_event_send acquire now st).1.next_evt =
          st.next_evt) ∧
      ((ble_ll_conn_num_comp_pkts_event_send acquire now st).2 ≠ [] →
        (ble_ll_conn_num_comp_pkts_event_send acquire now st).1.next_evt =
          (now + BLE_LL_NUM_COMP_PKT_RATE) % U32) := by
    intro acquire st now
    by_cases hg : u32_sub st.next_evt now < BLE_LL_NUM_COMP_PKT_RATE
    · constructor
      · intro _
        simp [ble_ll_conn_num_comp_pkts_event_send, hg]
      · intro hne
        exfalso
        apply hne
        simp [ble_ll_conn_num_comp_pkts_event_send, hg]
    · constructor
      · intro hemp
        simp only [ble_ll_conn_num_comp_pkts_event_send, if_neg hg] at hemp ⊢
        simp only [hemp, List.isEmpty_nil, if_true]
      · intro hne
        simp only [ble_ll_conn_num_comp_pkts_event_send, if_neg hg] at hne ⊢
        rw [if_neg (by simpa [List.isEmpty_iff] using hne)]
  refine ⟨?_, hadv⟩
  intro acquire acquire2 st now d hd1 hd2 hsent
  have hnext : (ble_ll_conn_num_comp_pkts_event_send acquire now st).1.next_evt =
      (now + BLE_LL_NUM_COMP_PKT_RATE) % U32 :=
    (hadv acquire st now).2 hsent
  have hblock :
      u32_sub (ble_ll_conn_num_comp_pkts_event_send acquire now st).1.next_evt
          (now + d) < BLE_LL_NUM_COMP_PKT_RATE := by
    rw [hnext]
    simp only [u32_sub, U32, BLE_LL_NUM_COMP_PKT_RATE] at *
    omega
  obtain ⟨st2, hst2⟩ :
      ∃ x, (ble_ll_conn_num_comp_pkts_event_send acquire now st).1 = x := ⟨_, rfl⟩
  rw [hst2] at hblock ⊢
  simp [ble_ll_conn_num_comp_pkts_event_send, hblock]

theorem ncp_event_send_rate_limited_second_call_witness :
    ble_ll_conn_num_comp_pkts_event_send (fun _ => true) (5000 + 1)
        (ble_ll_conn_num_comp_pkts_event_send (fun _ => true) 5000 ncpSt1).1 =
      ((ble_ll_conn_num_comp_pkts_event_send (fun _ => true) 5000 ncpSt1).1, []) :=
  ncp_event_send_rate_limited_second_call.1 (fun _ => true) (fun _ => true)
    ncpSt1 5000 1 (by decide) (by decide) (by decide)

/-- Helper: resetting zero records is the identity. -/
theorem ncp_resetFirst_zero (l : List ConnSm) : ncp_resetFirst 0 l = l := by
  cases l <;> simp [ncp_resetFirst]

/-- Helper: an ineligible head is passed over by `ncp_resetFirst`. -/
theorem ncp_resetFirst_cons_neg (c : ConnSm) (rest : List ConnSm) (n : Nat)
    (h : ncp_eligible c = false) :
    ncp_resetFirst n (c :: rest) = c :: ncp_resetFirst n rest := by
  cases n with
  | zero => simp [ncp_resetFirst_zero]
  | succ n => simp [ncp_resetFirst, h]

/-- Helper: an eligible head is reset by `ncp_resetFirst` when the
budget is positive. -/
theorem ncp_resetFirst_cons_pos (c : ConnSm) (rest : List ConnSm) (n : Nat)
    (h : ncp_eligible c = true) (hn : 0 < n) :
    ncp_resetFirst n (c :: rest) =
      { c with completed_pkts := 0 } :: ncp_resetFirst (n - 1) rest := by
  cases n with
  | zero => omega
  | succ n => simp [ncp_resetFirst, h]

/-- Loop invariant of `ncp_loop` when the acquisition with index
`k + m` fails (and the `m` acquisitions before it succeed) while more
eligible records remain than the failed acquisition's batch could ever
hold: the loop ships exactly the full batches covered by the open
buffer and the `m` acquired ones, resets exactly the records written
into them, leaves every later record untouched, and breaks with no
buffer open. -/
theorem ncp_loop_acquire_fails (acquire : Nat → Bool) :
    ∀ (conns : List ConnSm) (k m : Nat) (cur : Option (List (Nat × Nat)))
      (sent : List (List (Nat × Nat))) (out : List ConnSm),
      (∀ i, k ≤ i → i < k + m → acquire i = true) →
      acquire (k + m) = false →
      (∀ es, cur = some es → 0 < es.length ∧ es.length < 60) →
      60 * m + ncp_slack cur < (conns.filter ncp_eligible).length →
      ncp_loop acquire conns k cur sent out =
        ⟨k + m, none,
         sent ++ (chunk60 (cur.getD [] ++
           (ncp_entries conns).take (60 * m + ncp_slack cur))).1,
         out ++ ncp_resetFirst (60 * m + ncp_slack cur) conns⟩ := by
  intro conns
  induction conns with
  | nil =>
    intro k m cur sent out hok hfail hcur hlen
    simp only [List.filter_nil, List.length_nil] at hlen
    omega
  | cons c rest ih =>
    intro k m cur sent out hok hfail hcur hlen
    cases helig : ncp_eligible c with
    | false =>
      have hlen' : 60 * m + ncp_slack cur < (rest.filter ncp_eligible).length := by
        simpa [List.filter_cons, helig] using hlen
      have hent : ncp_entries (c :: rest) = ncp_entries rest := by
        simp [ncp_entries, helig]
      simp only [ncp_loop, helig, Bool.false_eq_true, if_false]
      rw [ih k m cur sent (out ++ [c]) hok hfail hcur hlen',
        hent, ncp_resetFirst_cons_neg c rest _ helig]
      simp
    | true =>
      have hlenc : (List.filter ncp_eligible (c :: rest)).length =
          (rest.filter ncp_eligible).length + 1 := by
        simp [List.filter_cons, helig]
      have hent : ncp_entries (c :: rest) =
          (c.conn_handle, c.completed_pkts) :: ncp_entries rest := by
        simp [ncp_entries, helig]
      cases cur with
      | none =>
        simp only [ncp_slack] at hlen ⊢
        rcases Nat.eq_zero_or_pos m with hm | hm
        · subst hm
          have hfk : acquire k = false := by simpa using hfail
          simp only [ncp_loop, helig, hfk, Bool.false_eq_true, if_true, if_false]
          rw [ncp_resetFirst_zero]
          simp [chunk60_lt [] (by simp)]
        · have hak : acquire k = true := hok k (Nat.le_refl k) (by omega)
          have hok' : ∀ i, k + 1 ≤ i → i < (k + 1) + (m - 1) → acquire i = true := by
            intro i h1 h2
            exact hok i (by omega) (by omega)
          have hfail' : acquire ((k + 1) + (m - 1)) = false := by
            have : (k + 1) + (m - 1) = k + m := by omega
            rw [this]
            exact hfail
          have hlen' : 60 * (m - 1) + ncp_slack (some [(c.conn_handle, c.completed_pkts)]) <
              (rest.filter ncp_eligible).length := by
            simp only [ncp_slack, List.length_cons, List.length_nil]
            rw [hlenc] at hlen
            omega
          simp only [ncp_loop, helig, hak, if_true, List.length_cons, List.length_nil,
            Nat.zero_add, Nat.reduceEqDiff, if_false]
          have hrec := ih (k + 1) (m - 1) (some [(c.conn_handle, c.completed_pkts)]) sent
              (out ++ [{ c with completed_pkts := 0 }]) hok' hfail'
              (by intro es hes; cases hes; simp) hlen'
          rw [hrec, hent, ncp_resetFirst_cons_pos c rest _ helig (by omega)]
          have e1 : (k + 1) + (m - 1) = k + m := by omega
          have etake : 60 * m + 0 =
              (60 * (m - 1) + ncp_slack (some [(c.conn_handle, c.completed_pkts)])) + 1 := by
            simp only [ncp_slack, List.length_cons, List.length_nil]
            omega
          rw [e1, etake, List.take_succ_cons]
          simp [Nat.add_sub_cancel]
      | some es0 =>
        obtain ⟨hpos0, hlt0⟩ := hcur es0 rfl
        simp only [ncp_slack] at hlen ⊢
        by_cases h60 : (es0 ++ [(c.conn_handle, c.completed_pkts)]).length = 60
        · have hes0 : es0.length = 59 := by
            simp only [List.length_append, List.length_cons, List.length_nil] at h60
            omega
          have hlen' : 60 * m + ncp_slack none < (rest.filter ncp_eligible).length := by
            simp only [ncp_slack]
            rw [hlenc] at hlen
            omega
          simp only [ncp_loop, helig, h60, if_true]
          have hrec := ih k m none (sent ++ [es0 ++ [(c.conn_handle, c.completed_pkts)]])
              (out ++ [{ c with completed_pkts := 0 }]) hok hfail
              (by intro es hes; cases hes) hlen'
          rw [hrec, hent, ncp_resetFirst_cons_pos c rest _ helig (by omega)]
          have etake : 60 * m + (60 - es0.length) =
              (60 * m + ncp_slack (none : Option (List (Nat × Nat)))) + 1 := by
            simp only [ncp_slack]
            omega
          rw [etake, List.take_succ_cons]
          have hcomb : (some es0).getD [] ++
              ((c.conn_handle, c.completed_pkts) ::
                (ncp_entries rest).take
                  (60 * m + ncp_slack (none : Option (List (Nat × Nat))))) =
              (es0 ++ [(c.conn_handle, c.completed_pkts)]) ++
                (ncp_entries rest).take
                  (60 * m + ncp_slack (none : Option (List (Nat × Nat)))) := by
            simp
          rw [hcomb, chunk60_append _ _ h60]
          simp [Nat.add_sub_cancel]
        · have hlt : (es0 ++ [(c.conn_handle, c.completed_pkts)]).length < 60 := by
            simp only [List.length_append, List.length_cons, List.length_nil] at h60 ⊢
            omega
          have hlen' : 60 * m +
              ncp_slack (some (es0 ++ [(c.conn_handle, c.completed_pkts)])) <
              (rest.filter ncp_eligible).length := by
            simp only [ncp_slack, List.length_append, List.length_cons, List.length_nil]
            rw [hlenc] at hlen
            omega
          simp only [ncp_loop, helig, h60, if_false, if_true]
          have hrec := ih k m (some (es0 ++ [(c.conn_handle, c.completed_pkts)])) sent
              (out ++ [{ c with completed_pkts := 0 }]) hok hfail
              (by
                intro es hes
                cases hes
                refine ⟨by simp, hlt⟩) hlen'
          rw [hrec, hent, ncp_resetFirst_cons_pos c rest _ helig (by omega)]
          have etake : 60 * m + (60 - es0.length) =
              (60 * m + ncp_slack (some (es0 ++ [(c.conn_handle, c.completed_pkts)]))) + 1 := by
            simp only [ncp_slack, List.length_append, List.length_cons, List.length_nil]
            omega
          rw [etake, List.take_succ_cons]
          simp [Nat.add_sub_cancel]

/-- Claim C10: a record's `completed_pkts` is reset exactly when its
entry is written into a successfully acquired buffer.  If, past the
rate gate, the acquisition with index `j` fails while more eligible
records remain, the loop stops right there: exactly the `j` full
60-entry batches already filled are sent (earlier full batches
unaffected), their entries are exactly those of the first `60·j`
eligible records in order, exactly those records are reset
(`ncp_resetFirst`) — every eligible record not yet written, and every
record after the break point, keeps its counter — and the gate advances
only if at least one report went out. -/
theorem ncp_event_send_buffer_fail_stops
    (acquire : Nat → Bool) (now : Nat) (st : NcpState) (j : Nat)
    (hok : ∀ i, i < j → acquire i = true)
    (hfail : acquire j = false)
    (hgate : BLE_LL_NUM_COMP_PKT_RATE ≤ u32_sub st.next_evt now)
    (helig : 60 * j < (st.conns.filter ncp_eligible).length) :
    (ble_ll_conn_num_comp_pkts_event_send acquire now st).2.length = j ∧
    (∀ b2 ∈ (ble_ll_conn_num_comp_pkts_event_send acquire now st).2, b2.length = 60) ∧
    (ble_ll_conn_num_comp_pkts_event_send acquire now st).2.flatten =
      (ncp_entries st.conns).take (60 * j) ∧
    (ble_ll_conn_num_comp_pkts_event_send acquire now st).1.conns =
      ncp_resetFirst (60 * j) st.conns ∧
    (0 < j →
      (ble_ll_conn_num_comp_pkts_event_send acquire now st).1.next_evt =
        (now + BLE_LL_NUM_COMP_PKT_RATE) % U32) ∧
    (j = 0 →
      (ble_ll_conn_num_comp_pkts_event_send acquire now st).1.next_evt =
        st.next_evt) := by
  have hloop := ncp_loop_acquire_fails acquire st.conns 0 j none [] []
      (fun i h1 h2 => hok i (by omega))
      (by simpa using hfail)
      (by intro es hes; cases hes)
      (by simpa [ncp_slack] using helig)
  simp only [ncp_slack, Option.getD_none, List.nil_append, Nat.add_zero,
    Nat.zero_add] at hloop
  have hElen : ((ncp_entries st.conns).take (60 * j)).length = 60 * j := by
    have hEq : (ncp_entries st.conns).length =
        (st.conns.filter ncp_eligible).length := by
      simp [ncp_entries]
    simp only [List.length_take]
    omega
  obtain ⟨hc1, hc2, hc3, -⟩ := chunk60_full j _ hElen
  simp only [ble_ll_conn_num_comp_pkts_event_send]
  rw [if_neg (by omega)]
  simp only [hloop]
  refine ⟨by simpa using hc1, ?_, by simpa using hc2, by simp, ?_, ?_⟩
  · intro b2 hb2
    exact hc3 b2 (by simpa using hb2)
  · intro hj
    have hne : ((chunk60 ((ncp_entries st.conns).take (60 * j))).1).isEmpty = false := by
      cases hS : (chunk60 ((ncp_entries st.conns).take (60 * j))).1 with
      | nil =>
        exfalso
        rw [hS] at hc1
        simp at hc1
        omega
      | cons a t => simp
    simp [hne]
  · intro hj
    subst hj
    have h0 : (chunk60 ((ncp_entries st.conns).take (60 * 0))).1 = [] := by
      cases hS : (chunk60 ((ncp_entries st.conns).take (60 * 0))).1 with
      | nil => rfl
      | cons a t =>
        rw [hS] at hc1
        simp at hc1
    simp [h0, chunk60_lt ([] : List (Nat × Nat)) (by simp)]

theorem ncp_event_send_buffer_fail_stops_witness :
    (ble_ll_conn_num_comp_pkts_event_send (fun i => i == 0) 5000 ⟨conns61, 0⟩).2.length = 1 ∧
    (∀ b2 ∈ (ble_ll_conn_num_comp_pkts_event_send (fun i => i == 0) 5000 ⟨conns61, 0⟩).2,
        b2.length = 60) ∧
    (ble_ll_conn_num_comp_pkts_event_send (fun i => i == 0) 5000 ⟨conns61, 0⟩).2.flatten =
      (ncp_entries conns61).take (60 * 1) ∧
    (ble_ll_conn_num_comp_pkts_event_send (fun i => i == 0) 5000 ⟨conns61, 0⟩).1.conns =
      ncp_resetFirst (60 * 1) conns61 ∧
    (0 < 1 →
      (ble_ll_conn_num_comp_pkts_event_send (fun i => i == 0) 5000 ⟨conns61, 0⟩).1.next_evt =
        (5000 + BLE_LL_NUM_COMP_PKT_RATE) % U32) ∧
    (1 = 0 →
      (ble_ll_conn_num_comp_pkts_event_send (fun i => i == 0) 5000 ⟨conns61, 0⟩).1.next_evt =
        0) :=
  ncp_event_send_buffer_fail_stops (fun i => i == 0) 5000 ⟨conns61, 0⟩ 1
    (by decide) (by decide) (by decide) (by decide)

set_option maxRecDepth 8192 in
/-- Helper: OR-packing a 5-bit value with a value occupying only the
high 3 bits of a byte (the two fields cover disjoint bit ranges): the
result fits one byte, its low 5 bits are the first field and its high
3 bits the second. -/
theorem lor_byte_facts :
    ∀ h2 : Nat, h2 < 32 → ∀ s : Nat, s < 256 → s % 32 = 0 →
      h2 ||| s < 256 ∧ (h2 ||| s) % 32 = h2 ∧
      32 * ((h2 ||| s) / 32) = s := by
  decide

/-- Claim C2: for a master-role record whose `own_addr_type` is public
or random, the connect-request encoder succeeds and writes the link
parameters at fixed offsets — `access_addr` little-endian at bytes
14–17, `crcinit` as 3 little-endian bytes at 18–20, `tx_win_size` at
21, `tx_win_off` at 22–23, `conn_itvl` at 24–25, `slave_latency` at
26–27, `supervision_tmo` at 28–29, the 5-byte channel map at 30–34 —
leaves bytes 8–13 (the advertiser address) untouched, and byte 35 is
the bitwise OR of `hop_inc` (low 5 bits) and `master_sca` (high 3
bits).  The field bounds are the C struct's type invariants
(`uint8_t`/`uint16_t`/`uint32_t` fields); `hop_inc < 32` is guaranteed
by its generator and `master_sca` is stored pre-shifted into the high
3 bits. -/
theorem ble_ll_conn_req_pdu_make_layout
    (dev_addr rand_addr : Nat → Nat) (c : ConnSm) (buf : Nat → Nat)
    (hrole : c.conn_role = BLE_LL_CONN_ROLE_MASTER)
    (htype : c.own_addr_type = BLE_HCI_ADV_OWN_ADDR_PUBLIC ∨
             c.own_addr_type = BLE_HCI_ADV_OWN_ADDR_RANDOM)
    (hhop : c.hop_inc < 32) (hsca : c.master_sca < 256)
    (hsca32 : c.master_sca % 32 = 0)
    (htws : c.tx_win_size < 256) (htwo : c.tx_win_off < 65536)
    (hci : c.conn_itvl < 65536) (hsl : c.slave_latency < 65536)
    (htmo : c.supervision_tmo < 65536) :
    ∃ m, ble_ll_conn_req_pdu_make dev_addr rand_addr c buf = some m ∧
      m 14 = c.access_addr % 256 ∧
      m 15 = c.access_addr / 256 % 256 ∧
      m 16 = c.access_addr / 65536 % 256 ∧
      m 17 = c.access_addr / 16777216 % 256 ∧
      m 18 = c.crcinit % 256 ∧
      m 19 = c.crcinit / 256 % 256 ∧
      m 20 = c.crcinit / 65536 % 256 ∧
      m 21 = c.tx_win_size ∧
      m 22 = c.tx_win_off % 256 ∧
      m 23 = c.tx_win_off / 256 ∧
      m 24 = c.conn_itvl % 256 ∧
      m 25 = c.conn_itvl / 256 ∧
      m 26 = c.slave_latency % 256 ∧
      m 27 = c.slave_latency / 256 ∧
      m 28 = c.supervision_tmo % 256 ∧
      m 29 = c.supervision_tmo / 256 ∧
      (∀ k2, k2 < 5 → m (30 + k2) = c.chanmap.getD k2 0) ∧
      m 8 = buf 8 ∧
      m 9 = buf 9 ∧
      m 10 = buf 10 ∧
      m 11 = buf 11 ∧
      m 12 = buf 12 ∧
      m 13 = buf 13 ∧
      m 35 = c.hop_inc ||| c.master_sca ∧
      m 35 % 32 = c.hop_inc ∧
      32 * (m 35 / 32) = c.master_sca := by
  obtain ⟨hl1, hl2, hl3⟩ := lor_byte_facts c.hop_inc hhop c.master_sca hsca hsca32
  simp only [ble_ll_conn_req_pdu_make]
  rw [if_pos htype]
  refine ⟨_, rfl, ?_, ?_, ?_, ?_, ?_, ?_, ?_, ?_, ?_, ?_, ?_, ?_, ?_, ?_, ?_, ?_, ?_, ?_, ?_, ?_, ?_, ?_, ?_, ?_, ?_, ?_⟩
  · simp [wr8, htole16w, htole32w, memcpy_bytes, Function.update_apply,
      BLE_LL_PDU_HDR_LEN, BLE_DEV_ADDR_LEN, BLE_LL_CONN_CHMAP_LEN, BLE_CONNECT_REQ_LEN, BLE_ADV_PDU_TYPE_CONNECT_REQ, BLE_ADV_PDU_HDR_TXADD_RAND]
  · simp [wr8, htole16w, htole32w, memcpy_bytes, Function.update_apply,
      BLE_LL_PDU_HDR_LEN, BLE_DEV_ADDR_LEN, BLE_LL_CONN_CHMAP_LEN, BLE_CONNECT_REQ_LEN, BLE_ADV_PDU_TYPE_CONNECT_REQ, BLE_ADV_PDU_HDR_TXADD_RAND]
  · simp [wr8, htole16w, htole32w, memcpy_bytes, Function.update_apply,
      BLE_LL_PDU_HDR_LEN, BLE_DEV_ADDR_LEN, BLE_LL_CONN_CHMAP_LEN, BLE_CONNECT_REQ_LEN, BLE_ADV_PDU_TYPE_CONNECT_REQ, BLE_ADV_PDU_HDR_TXADD_RAND]
  · simp [wr8, htole16w, htole32w, memcpy_bytes, Function.update_apply,
      BLE_LL_PDU_HDR_LEN, BLE_DEV_ADDR_LEN, BLE_LL_CONN_CHMAP_LEN, BLE_CONNECT_REQ_LEN, BLE_ADV_PDU_TYPE_CONNECT_REQ, BLE_ADV_PDU_HDR_TXADD_RAND]
  · simp [wr8, htole16w, htole32w, memcpy_bytes, Function.update_apply,
      BLE_LL_PDU_HDR_LEN, BLE_DEV_ADDR_LEN, BLE_LL_CONN_CHMAP_LEN, BLE_CONNECT_REQ_LEN, BLE_ADV_PDU_TYPE_CONNECT_REQ, BLE_ADV_PDU_HDR_TXADD_RAND]
  · simp [wr8, htole16w, htole32w, memcpy_bytes, Function.update_apply,
      BLE_LL_PDU_HDR_LEN, BLE_DEV_ADDR_LEN, BLE_LL_CONN_CHMAP_LEN, BLE_CONNECT_REQ_LEN, BLE_ADV_PDU_TYPE_CONNECT_REQ, BLE_ADV_PDU_HDR_TXADD_RAND]
  · simp [wr8, htole16w, htole32w, memcpy_bytes, Function.update_apply,
      BLE_LL_PDU_HDR_LEN, BLE_DEV_ADDR_LEN, BLE_LL_CONN_CHMAP_LEN, BLE_CONNECT_REQ_LEN, BLE_ADV_PDU_TYPE_CONNECT_REQ, BLE_ADV_PDU_HDR_TXADD_RAND]
  · simp [wr8, htole16w, htole32w, memcpy_bytes, Function.update_apply,
      BLE_LL_PDU_HDR_LEN, BLE_DEV_ADDR_LEN, BLE_LL_CONN_CHMAP_LEN, BLE_CONNECT_REQ_LEN, BLE_ADV_PDU_TYPE_CONNECT_REQ, BLE_ADV_PDU_HDR_TXADD_RAND]
    omega
  · simp [wr8, htole16w, htole32w, memcpy_bytes, Function.update_apply,
      BLE_LL_PDU_HDR_LEN, BLE_DEV_ADDR_LEN, BLE_LL_CONN_CHMAP_LEN, BLE_CONNECT_REQ_LEN, BLE_ADV_PDU_TYPE_CONNECT_REQ, BLE_ADV_PDU_HDR_TXADD_RAND]
  · simp [wr8, htole16w, htole32w, memcpy_bytes, Function.update_apply,
      BLE_LL_PDU_HDR_LEN, BLE_DEV_ADDR_LEN, BLE_LL_CONN_CHMAP_LEN, BLE_CONNECT_REQ_LEN, BLE_ADV_PDU_TYPE_CONNECT_REQ, BLE_ADV_PDU_HDR_TXADD_RAND]
    omega
  · simp [wr8, htole16w, htole32w, memcpy_bytes, Function.update_apply,
      BLE_LL_PDU_HDR_LEN, BLE_DEV_ADDR_LEN, BLE_LL_CONN_CHMAP_LEN, BLE_CONNECT_REQ_LEN, BLE_ADV_PDU_TYPE_CONNECT_REQ, BLE_ADV_PDU_HDR_TXADD_RAND]
  · simp [wr8, htole16w, htole32w, memcpy_bytes, Function.update_apply,
      BLE_LL_PDU_HDR_LEN, BLE_DEV_ADDR_LEN, BLE_LL_CONN_CHMAP_LEN, BLE_CONNECT_REQ_LEN, BLE_ADV_PDU_TYPE_CONNECT_REQ, BLE_ADV_PDU_HDR_TXADD_RAND]
    omega
  · simp [wr8, htole16w, htole32w, memcpy_bytes, Function.update_apply,
      BLE_LL_PDU_HDR_LEN, BLE_DEV_ADDR_LEN, BLE_LL_CONN_CHMAP_LEN, BLE_CONNECT_REQ_LEN, BLE_ADV_PDU_TYPE_CONNECT_REQ, BLE_ADV_PDU_HDR_TXADD_RAND]
  · simp [wr8, htole16w, htole32w, memcpy_bytes, Function.update_apply,
      BLE_LL_PDU_HDR_LEN, BLE_DEV_ADDR_LEN, BLE_LL_CONN_CHMAP_LEN, BLE_CONNECT_REQ_LEN, BLE_ADV_PDU_TYPE_CONNECT_REQ, BLE_ADV_PDU_HDR_TXADD_RAND]
    omega
  · simp [wr8, htole16w, htole32w, memcpy_bytes, Function.update_apply,
      BLE_LL_PDU_HDR_LEN, BLE_DEV_ADDR_LEN, BLE_LL_CONN_CHMAP_LEN, BLE_CONNECT_REQ_LEN, BLE_ADV_PDU_TYPE_CONNECT_REQ, BLE_ADV_PDU_HDR_TXADD_RAND]
  · simp [wr8, htole16w, htole32w, memcpy_bytes, Function.update_apply,
      BLE_LL_PDU_HDR_LEN, BLE_DEV_ADDR_LEN, BLE_LL_CONN_CHMAP_LEN, BLE_CONNECT_REQ_LEN, BLE_ADV_PDU_TYPE_CONNECT_REQ, BLE_ADV_PDU_HDR_TXADD_RAND]
    omega
  · intro k2 hk2
    interval_cases k2 <;>
      simp [wr8, htole16w, htole32w, memcpy_bytes, Function.update_apply,
      BLE_LL_PDU_HDR_LEN, BLE_DEV_ADDR_LEN, BLE_LL_CONN_CHMAP_LEN, BLE_CONNECT_REQ_LEN, BLE_ADV_PDU_TYPE_CONNECT_REQ, BLE_ADV_PDU_HDR_TXADD_RAND]
  · simp [wr8, htole16w, htole32w, memcpy_bytes, Function.update_apply,
      BLE_LL_PDU_HDR_LEN, BLE_DEV_ADDR_LEN, BLE_LL_CONN_CHMAP_LEN, BLE_CONNECT_REQ_LEN, BLE_ADV_PDU_TYPE_CONNECT_REQ, BLE_ADV_PDU_HDR_TXADD_RAND]
  · simp [wr8, htole16w, htole32w, memcpy_bytes, Function.update_apply,
      BLE_LL_PDU_HDR_LEN, BLE_DEV_ADDR_LEN, BLE_LL_CONN_CHMAP_LEN, BLE_CONNECT_REQ_LEN, BLE_ADV_PDU_TYPE_CONNECT_REQ, BLE_ADV_PDU_HDR_TXADD_RAND]
  · simp [wr8, htole16w, htole32w, memcpy_bytes, Function.update_apply,
      BLE_LL_PDU_HDR_LEN, BLE_DEV_ADDR_LEN, BLE_LL_CONN_CHMAP_LEN, BLE_CONNECT_REQ_LEN, BLE_ADV_PDU_TYPE_CONNECT_REQ, BLE_ADV_PDU_HDR_TXADD_RAND]
  · simp [wr8, htole16w, htole32w, memcpy_bytes, Function.update_apply,
      BLE_LL_PDU_HDR_LEN, BLE_DEV_ADDR_LEN, BLE_LL_CONN_CHMAP_LEN, BLE_CONNECT_REQ_LEN, BLE_ADV_PDU_TYPE_CONNECT_REQ, BLE_ADV_PDU_HDR_TXADD_RAND]
  · simp [wr8, htole16w, htole32w, memcpy_bytes, Function.update_apply,
      BLE_LL_PDU_HDR_LEN, BLE_DEV_ADDR_LEN, BLE_LL_CONN_CHMAP_LEN, BLE_CONNECT_REQ_LEN, BLE_ADV_PDU_TYPE_CONNECT_REQ, BLE_ADV_PDU_HDR_TXADD_RAND]
  · simp [wr8, htole16w, htole32w, memcpy_bytes, Function.update_apply,
      BLE_LL_PDU_HDR_LEN, BLE_DEV_ADDR_LEN, BLE_LL_CONN_CHMAP_LEN, BLE_CONNECT_REQ_LEN, BLE_ADV_PDU_TYPE_CONNECT_REQ, BLE_ADV_PDU_HDR_TXADD_RAND]
  · simp [wr8, htole16w, htole32w, memcpy_bytes, Function.update_apply,
      BLE_LL_PDU_HDR_LEN, BLE_DEV_ADDR_LEN, BLE_LL_CONN_CHMAP_LEN, BLE_CONNECT_REQ_LEN, BLE_ADV_PDU_TYPE_CONNECT_REQ, BLE_ADV_PDU_HDR_TXADD_RAND]
    exact hl1
  · simp [wr8, htole16w, htole32w, memcpy_bytes, Function.update_apply,
      BLE_LL_PDU_HDR_LEN, BLE_DEV_ADDR_LEN, BLE_LL_CONN_CHMAP_LEN, BLE_CONNECT_REQ_LEN, BLE_ADV_PDU_TYPE_CONNECT_REQ, BLE_ADV_PDU_HDR_TXADD_RAND]
    rw [Nat.mod_eq_of_lt hl1]
    exact hl2
  · simp [wr8, htole16w, htole32w, memcpy_bytes, Function.update_apply,
      BLE_LL_PDU_HDR_LEN, BLE_DEV_ADDR_LEN, BLE_LL_CONN_CHMAP_LEN, BLE_CONNECT_REQ_LEN, BLE_ADV_PDU_TYPE_CONNECT_REQ, BLE_ADV_PDU_HDR_TXADD_RAND]
    rw [Nat.mod_eq_of_lt hl1]
    exact hl3

theorem ble_ll_conn_req_pdu_make_layout_witness :
    ∃ m, ble_ll_conn_req_pdu_make (fun i => 50 + i) (fun i => 60 + i) cC2
        (fun i => 100 + i) = some m ∧
      m 14 = cC2.access_addr % 256 ∧
      m 15 = cC2.access_addr / 256 % 256 ∧
      m 16 = cC2.access_addr / 65536 % 256 ∧
      m 17 = cC2.access_addr / 16777216 % 256 ∧
      m 18 = cC2.crcinit % 256 ∧
      m 19 = cC2.crcinit / 256 % 256 ∧
      m 20 = cC2.crcinit / 65536 % 256 ∧
      m 21 = cC2.tx_win_size ∧
      m 22 = cC2.tx_win_off % 256 ∧
      m 23 = cC2.tx_win_off / 256 ∧
      m 24 = cC2.conn_itvl % 256 ∧
      m 25 = cC2.conn_itvl / 256 ∧
      m 26 = cC2.slave_latency % 256 ∧
      m 27 = cC2.slave_latency / 256 ∧
      m 28 = cC2.supervision_tmo % 256 ∧
      m 29 = cC2.supervision_tmo / 256 ∧
      (∀ k2, k2 < 5 → m (30 + k2) = cC2.chanmap.getD k2 0) ∧
      m 8 = (fun i => 100 + i) 8 ∧
      m 9 = (fun i => 100 + i) 9 ∧
      m 10 = (fun i => 100 + i) 10 ∧
      m 11 = (fun i => 100 + i) 11 ∧
      m 12 = (fun i => 100 + i) 12 ∧
      m 13 = (fun i => 100 + i) 13 ∧
      m 35 = cC2.hop_inc ||| cC2.master_sca ∧
      m 35 % 32 = cC2.hop_inc ∧
      32 * (m 35 / 32) = cC2.master_sca :=
  ble_ll_conn_req_pdu_make_layout (fun i => 50 + i) (fun i => 60 + i) cC2
    (fun i => 100 + i) (by decide) (by decide) (by decide) (by decide)
    (by decide) (by decide) (by decide) (by decide) (by decide) (by decide)
